import Mathlib

/-!
Shallow embedding of `src/package.py` from the digitized_image_packaging
repository (class `Packager`), together with proofs about the properties of
its pipeline.  Pure fragments of the Python code are translated to Lean
functions; filesystem and network effects are made explicit (filesystem
states are passed explicitly, fallible calls return `Except`, and remote
calls are recorded as events in a trace).
-/

namespace DigitizedAv

/-- A staged file, represented by the two `pathlib.Path` components the code
reads: `stem` (name without the final extension) and `suffix` (the final
extension including the leading dot, empty when there is none). -/
structure PathFile where
  stem : String
  suffix : String
deriving DecidableEq

/-- Rendering of a Python list of paths used in the error message of
`parse_format` (`f"... for files {file_list}."`). -/
def renderFileList (file_list : List PathFile) : String :=
  "[" ++ String.intercalate ", " (file_list.map (fun f => f.stem ++ f.suffix)) ++ "]"

/-- `Packager.parse_format` (src/package.py:88-98): returns `"audio"` if any
file has suffix `.mp3`, else `"video"` if any file has suffix `.mp4`, else
raises an unrecognized-format exception naming the file list. -/
def parse_format (file_list : List PathFile) : Except String String :=
  if file_list.any (fun f => f.suffix = ".mp3") then Except.ok "audio"
  else if file_list.any (fun f => f.suffix = ".mp4") then Except.ok "video"
  else Except.error ("Unrecognized package format for files " ++ renderFileList file_list ++ ".")

/-- The fields of the `Packager` object set in `__init__`
(src/package.py:24-42) that the verified methods read.  `format` models the
dynamically-set attribute `self.format`: it is `none` until `run` assigns it
from `parse_format` (`getattr(self, "format", ...)` is then `Option.getD`). -/
structure Packager where
  refid : String
  rights_ids : List String
  tmp_dir : String
  source_dir : String
  destination_bucket : String
  destination_bucket_video_mezzanine : String
  destination_bucket_video_access : String
  destination_bucket_audio_access : String
  destination_bucket_poster : String
  sns_topic : String
  format : Option String
deriving DecidableEq

/-- `self.service_name` assigned in `__init__` (src/package.py:39). -/
def service_name : String := "digitized_av_packaging"

/-- `Packager.derivative_map` (src/package.py:117-137): list of
(path, S3 bucket, mimetype) triples depending on `self.format`.
Paths are rendered as strings (`bag_path / name` is `bag_path ++ "/" ++ name`). -/
def derivative_map (p : Packager) : List (String × String × String) :=
  let bag_path := p.tmp_dir ++ "/" ++ p.refid
  if p.format = some "video" then
    [(bag_path ++ "/" ++ p.refid ++ ".mov", p.destination_bucket_video_mezzanine,
       "video/quicktime"),
     (bag_path ++ "/" ++ p.refid ++ ".mp4", p.destination_bucket_video_access, "video/mp4"),
     (bag_path ++ "/poster.png", p.destination_bucket_poster, "image/x-png")]
  else
    [(bag_path ++ "/" ++ p.refid ++ ".mp3", p.destination_bucket_audio_access, "audio/mpeg")]

/-- One `client.publish` call to SNS: topic, message body, and the
`MessageAttributes` mapping (attribute name to `StringValue`). -/
structure SNSPublish where
  topicArn : String
  message : String
  attributes : List (String × String)
deriving DecidableEq

/-- Association-list lookup over published message attributes. -/
def lookupAttr (attrs : List (String × String)) (key : String) : Option String :=
  match attrs with
  | [] => none
  | (k, v) :: rest => if key = k then some v else lookupAttr rest key

/-- `Packager.deliver_failure_notification` (src/package.py:322-355).
`excMessage` is `str(exception)`; `excFrames` is the list returned by
`traceback.format_exception(exception)`, whose last element is dropped
(`[:-1]`) before joining.  The `format` attribute is
`getattr(self, "format", "unknown format")`. -/
def deliver_failure_notification (p : Packager) (excMessage : String)
    (excFrames : List String) : SNSPublish :=
  let fmt := p.format.getD "unknown format"
  let tb := String.join excFrames.dropLast
  { topicArn := p.sns_topic
    message := fmt ++ " package " ++ p.refid ++ " failed packaging"
    attributes := [
      ("format", fmt),
      ("refid", p.refid),
      ("service", service_name),
      ("outcome", "FAILURE"),
      ("message", excMessage ++ "\n\n<pre>" ++ tb ++ "</pre>")] }

/-- A calendar date as held by a Python `datetime`/`dateutil` value:
year, month (1-12) and day (1-31). -/
structure PyDate where
  year : Nat
  month : Nat
  day : Nat
deriving DecidableEq

/-- Gregorian leap-year rule (as implemented by the Python `calendar`/
`dateutil`). -/
def isLeapYear (y : Nat) : Bool :=
  (y % 4 = 0 && y % 100 ≠ 0) || y % 400 = 0

/-- Number of days in a Gregorian month. -/
def daysInMonth (y m : Nat) : Nat :=
  if m = 2 then (if isLeapYear y then 29 else 28)
  else if m = 4 ∨ m = 6 ∨ m = 9 ∨ m = 11 then 30
  else 31

/-- Split a character list at every occurrence of the separator `c`
(the semantics of the Python `str.split` method with an explicit separator). -/
def splitOnChar (c : Char) : List Char → List (List Char)
  | [] => [[]]
  | x :: xs =>
    if x = c then [] :: splitOnChar c xs
    else
      match splitOnChar c xs with
      | [] => [[x]]
      | h :: t => (x :: h) :: t

/-- Parse a nonempty all-digit character list as a decimal number. -/
def charsToNat (l : List Char) : Option Nat :=
  if l ≠ [] ∧ l.all (fun c => c.isDigit) then
    some (l.foldl (fun acc c => acc * 10 + (c.toNat - 48)) 0)
  else none

/-- Model of `dateutil.parser.isoparse` restricted to the date-only ISO forms
the packager feeds it: `YYYY` parses to January 1 of that year, `YYYY-MM` to
the first of that month, and `YYYY-MM-DD` to that exact date; anything else is
a parse error. -/
def isoparse (s : String) : Option PyDate :=
  match splitOnChar (Char.ofNat 45) s.data with
  | [y] => do
    let yn ← charsToNat y
    if y.length = 4 then some ⟨yn, 1, 1⟩ else none
  | [y, m] => do
    let yn ← charsToNat y
    let mn ← charsToNat m
    if y.length = 4 ∧ m.length = 2 ∧ 1 ≤ mn ∧ mn ≤ 12 then some ⟨yn, mn, 1⟩ else none
  | [y, m, d] => do
    let yn ← charsToNat y
    let mn ← charsToNat m
    let dn ← charsToNat d
    if y.length = 4 ∧ m.length = 2 ∧ d.length = 2 ∧ 1 ≤ mn ∧ mn ≤ 12 ∧
        1 ≤ dn ∧ dn ≤ daysInMonth yn mn then
      some ⟨yn, mn, dn⟩
    else none
  | _ => none

/-- Left-pad the decimal rendering of `n` with zeros to the given width. -/
def padZero (width n : Nat) : String :=
  let s := toString n
  if s.length < width then
    String.mk (List.replicate (width - s.length) (Char.ofNat 48)) ++ s
  else s

/-- the Python `date.strftime("%Y-%m-%d")` call. -/
def strftimeYMD (d : PyDate) : String :=
  padZero 4 d.year ++ "-" ++ padZero 2 d.month ++ "-" ++ padZero 2 d.day

/-- `date + relativedelta.relativedelta(month=?, day=?)` with absolute
(singular) arguments: the month and day are replaced when given, and the day
is clamped to the length of the resulting month (dateutil documents `day=31`
as always yielding the last day of the month). -/
def relativedeltaAbs (d : PyDate) (monthArg : Option Nat) (dayArg : Option Nat) : PyDate :=
  let m := monthArg.getD d.month
  let dayRaw := dayArg.getD d.day
  { year := d.year, month := m, day := min dayRaw (daysInMonth d.year m) }

/-- `Packager.format_aspace_date` (src/package.py:192-218): parses both dates,
formats the start as `%Y-%m-%d`, and widens the end depending on the raw
string length: 4 characters gets `relativedelta(month=12, day=31)`,
7 characters gets `relativedelta(day=31)`, anything else is returned raw. -/
def format_aspace_date (start_date end_date : String) : Option (String × String) := do
  let parsed_start ← isoparse start_date
  let parsed_end ← isoparse end_date
  let formatted_start := strftimeYMD parsed_start
  let formatted_end :=
    if end_date.length = 4 then
      strftimeYMD (relativedeltaAbs parsed_end (some 12) (some 31))
    else if end_date.length = 7 then
      strftimeYMD (relativedeltaAbs parsed_end none (some 31))
    else end_date
  some (formatted_start, formatted_end)

/-- An ArchivesSpace date record as read by `get_date_range`: the Python dict
keys `date_type`, `begin` and `end` become the fields `date_type`,
`date_begin` and `date_end`. -/
structure ASDate where
  date_type : String
  date_begin : String
  date_end : String
deriving DecidableEq

/-- The `start_dates` list accumulated by `get_date_range`: every record
contributes `date[begin]`. -/
def beginValues (dates_array : List ASDate) : List String :=
  dates_array.map (fun date => date.date_begin)

/-- The `end_dates` list accumulated by `get_date_range`: a record of type
`single` contributes `date[begin]`, any other contributes `date[end]`. -/
def endValues (dates_array : List ASDate) : List String :=
  dates_array.map (fun date =>
    if date.date_type = "single" then date.date_begin else date.date_end)

/-- Lexicographic comparison of strings by character code, the ordering
the Python `sorted` builtin applies to `str` values (compared as their character
sequences). -/
def pyStrLe (a b : String) : Prop :=
  a.data ≤ b.data

instance : DecidableRel pyStrLe :=
  fun a b => inferInstanceAs (Decidable (a.data ≤ b.data))

instance : IsTotal String pyStrLe :=
  ⟨fun a b => le_total a.data b.data⟩

instance : IsTrans String pyStrLe :=
  ⟨fun _ _ _ hab hbc => le_trans hab hbc⟩

/-- the Python `sorted` builtin on strings: a stable ascending sort under lexicographic
string comparison. -/
def pySorted (l : List String) : List String :=
  l.insertionSort pyStrLe

/-- `Packager.get_date_range` (src/package.py:172-190): returns
`sorted(start_dates)[0], sorted(end_dates)[-1]`.  Indexing an empty list
raises in Python, modelled by `none`. -/
def get_date_range (dates_array : List ASDate) : Option (String × String) :=
  match (pySorted (beginValues dates_array)).head?,
      (pySorted (endValues dates_array)).getLast? with
  | some s, some e => some (s, e)
  | _, _ => none

/-- The pipeline steps called inside the `try` block of `Packager.run`
(src/package.py:44-71), in source order. -/
inductive Step where
  | get_config
  | move_to_tmp
  | parse_format
  | create_poster
  | deliver_derivatives
  | create_bag
  | compress_bag
  | deliver_package
  | cleanup_successful_job
  | deliver_success_notification
deriving DecidableEq

/-- The step sequence of the `try` block of `run`, in source order. -/
def pipelineSteps : List Step :=
  [Step.get_config, Step.move_to_tmp, Step.parse_format, Step.create_poster,
   Step.deliver_derivatives, Step.create_bag, Step.compress_bag, Step.deliver_package,
   Step.cleanup_successful_job, Step.deliver_success_notification]

/-- Observable calls made by `run`: a forward pipeline step being invoked, the
failure-path `cleanup_failed_job(bag_dir)` call, and the failure-path
`deliver_failure_notification(e)` call (recording `str(e)`). -/
inductive RunEvent where
  | called (s : Step)
  | cleanup_failed_job_called
  | deliver_failure_notification_called (err : String)
deriving DecidableEq

/-- Sequential execution of the `try` block: each step is called strictly
after the previous one completed; `outcome s = some e` means the call to `s`
raises the exception `e`, `none` means it returns normally.  Returns the
trace of calls made and the first raised exception, if any. -/
def runSteps (outcome : Step → Option String) : List Step → List RunEvent × Option String
  | [] => ([], none)
  | s :: rest =>
    match outcome s with
    | some e => ([RunEvent.called s], some e)
    | none =>
      let tr := runSteps outcome rest
      (RunEvent.called s :: tr.1, tr.2)

/-- `Packager.run` (src/package.py:44-71): the `try` block runs the pipeline
steps in order; on the first exception `e` the `except` clause runs
`cleanup_failed_job(bag_dir)` and then `deliver_failure_notification(e)`.
`cleanupOutcome` is the outcome of the `cleanup_failed_job` call itself
(`some ce` meaning it raises `ce`); since that call has no inner guard, its
exception aborts the handler before the notification call and escapes `run`.
Result: the trace of calls and the exception escaping `run`, if any. -/
def run (outcome : Step → Option String) (cleanupOutcome : Option String) :
    List RunEvent × Option String :=
  match runSteps outcome pipelineSteps with
  | (tr, none) => (tr, none)
  | (tr, some e) =>
    match cleanupOutcome with
    | some ce => (tr ++ [RunEvent.cleanup_failed_job_called], some ce)
    | none =>
      (tr ++ [RunEvent.cleanup_failed_job_called,
              RunEvent.deliver_failure_notification_called e], none)

/-- Split a character list at every `/`, i.e. the components of a POSIX path
string. -/
def pathParts (p : String) : List (List Char) :=
  splitOnChar (Char.ofNat 47) p.data

/-- `pathlib.Path(p).name`: the final path component. -/
def pathName (p : String) : String :=
  String.mk ((pathParts p).getLast?.getD [])

/-- `pathlib.Path(p).suffix`: the final extension of the final component,
including the leading dot; empty for names without a dot, for dotfiles such
as `.bashrc`, and for names ending in a dot. -/
def pathSuffix (p : String) : String :=
  match splitOnChar (Char.ofNat 46) (pathName p).data with
  | [] => ""
  | [_] => ""
  | [[], _] => ""
  | parts =>
    match parts.getLast?.getD [] with
    | [] => ""
    | ext => String.mk (Char.ofNat 46 :: ext)

/-- Observable S3 calls: `client.upload_file(path, bucket, key,
ExtraArgs with a ContentType, ...)` and `path.unlink()`. -/
inductive S3Event where
  | upload_file (path bucket key content_type : String)
  | unlink (path : String)
deriving DecidableEq

/-- The upload loop of `Packager.deliver_derivatives` (src/package.py:148-157):
for each planned entry, `upload_file` is called with key
`f"{refid}{obj_path.suffix}"`; only if it returns does `obj_path.unlink()`
run.  `uploadOk path = false` means the transfer call for `path` raises, which
aborts the loop (no unlink for that file, no further entries). -/
def uploadLoop (uploadOk : String → Bool) (refid : String) :
    List (String × String × String) → List S3Event
  | [] => []
  | (obj_path, bucket, content_type) :: rest =>
    let ev := S3Event.upload_file obj_path bucket (refid ++ pathSuffix obj_path) content_type
    if uploadOk obj_path then
      ev :: S3Event.unlink obj_path :: uploadLoop uploadOk refid rest
    else [ev]

/-- `Packager.deliver_derivatives` (src/package.py:139-158): runs the upload
loop over `derivative_map`. -/
def deliver_derivatives (p : Packager) (uploadOk : String → Bool) : List S3Event :=
  uploadLoop uploadOk p.refid (derivative_map p)

/-- `Packager.deliver_package` (src/package.py:259-278): uploads the
compressed archive to `destination_bucket` under key `package_path.name` with
content type `application/gzip`, then unlinks the local file; if the transfer
raises, no unlink happens. -/
def deliver_package (p : Packager) (uploadOk : String → Bool)
    (package_path : String) : List S3Event :=
  let ev := S3Event.upload_file package_path p.destination_bucket (pathName package_path)
    "application/gzip"
  if uploadOk package_path then [ev, S3Event.unlink package_path] else [ev]

/-- A directory tree: a leaf file with contents, or a directory mapping entry
names to subtrees. -/
inductive FTree where
  | file (content : String)
  | dir (entries : List (String × FTree))

/-- A gzip-compressed tar archive as produced by
`tarfile.open(path, "w:gz")` followed by `tar.add(dir, arcname)`: it stores
the full tree of `dir`, with all relative paths preserved, rooted under the
top-level name `arcname`. -/
structure TarGz where
  arcname : String
  tree : FTree

/-- An entry of the local filesystem: a directory tree, a `.tar.gz` archive
file, or a plain file. -/
inductive FSEntry where
  | dirEntry (t : FTree)
  | archive (a : TarGz)
  | plainFile (content : String)

/-- The local filesystem, as a flat association list from path to entry. -/
def FS : Type := List (String × FSEntry)

/-- Lookup of the entry at a path. -/
def fsLookup (fs : FS) (p : String) : Option FSEntry :=
  match fs with
  | [] => none
  | (q, e) :: rest => if p = q then some e else fsLookup rest p

/-- Removal of the entry at a path (no-op when absent). -/
def fsErase : FS → String → FS
  | [], _ => []
  | (q, e) :: rest, p => if q = p then fsErase rest p else (q, e) :: fsErase rest p

/-- Creation or truncation of the entry at a path. -/
def fsInsert (fs : FS) (p : String) (e : FSEntry) : FS :=
  (p, e) :: fsErase fs p

/-- `pathlib.Path(p).is_dir()`. -/
def is_dir (fs : FS) (p : String) : Bool :=
  match fsLookup fs p with
  | some (FSEntry.dirEntry _) => true
  | _ => false

/-- `shutil.rmtree(p)`: removes a directory tree; raises when `p` is not an
existing directory. -/
def rmtree (fs : FS) (p : String) : Except String FS :=
  match fsLookup fs p with
  | some (FSEntry.dirEntry _) => Except.ok (fsErase fs p)
  | _ => Except.error "FileNotFoundError"

/-- `pathlib.Path(p).unlink(missing_ok=...)`: removes a non-directory entry;
with `missing_ok` a missing path is not an error, while a directory raises. -/
def unlink (fs : FS) (p : String) (missing_ok : Bool) : Except String FS :=
  match fsLookup fs p with
  | some (FSEntry.dirEntry _) => Except.error "IsADirectoryError"
  | some _ => Except.ok (fsErase fs p)
  | none => if missing_ok then Except.ok fs else Except.error "FileNotFoundError"

/-- `Packager.compress_bag` (src/package.py:243-257): writes the archive
`f"{bag_dir}.tar.gz"` holding `tar.add(bag_dir, arcname=Path(bag_dir).name)`,
removes the uncompressed directory with `rmtree(bag_dir)`, and returns the
compressed path.  A missing `bag_dir` makes `tar.add` raise. -/
def compress_bag (fs : FS) (bag_dir : String) : Except String (String × FS) :=
  let compressed_path := bag_dir ++ ".tar.gz"
  match fsLookup fs bag_dir with
  | some (FSEntry.dirEntry tree) =>
    let fs1 := fsInsert fs compressed_path (FSEntry.archive ⟨pathName bag_dir, tree⟩)
    match rmtree fs1 bag_dir with
    | Except.ok fs2 => Except.ok (compressed_path, fs2)
    | Except.error e => Except.error e
  | _ => Except.error "FileNotFoundError"

/-- Decompression of a `.tar.gz` archive (the hypothetical inverse named by
the round-trip property of the spec): tar extraction reproduces the stored file
set with relative paths preserved, rooted under the stored top-level
`arcname`. -/
def extractArchive (a : TarGz) : List (String × FTree) :=
  [(a.arcname, a.tree)]

/-- `Packager.cleanup_failed_job` (src/package.py:285-294): removes `bag_dir`
when it is a directory, then unlinks `f"{bag_dir}.tar.gz"` with
`missing_ok=True`. -/
def cleanup_failed_job (fs : FS) (bag_dir : String) : Except String FS :=
  match (if is_dir fs bag_dir then rmtree fs bag_dir else Except.ok fs) with
  | Except.error e => Except.error e
  | Except.ok fs1 => unlink fs1 (bag_dir ++ ".tar.gz") true

/-- A concrete `Packager` built from the constructor arguments used by the
test suite of the repository, before `self.format` has been assigned. -/
def samplePackager : Packager :=
  { refid := "b90862f3"
    rights_ids := ["1", "2"]
    tmp_dir := "tmp"
    source_dir := "source"
    destination_bucket := "destination"
    destination_bucket_video_mezzanine := "destination_video_mezz"
    destination_bucket_video_access := "destination_video_access"
    destination_bucket_audio_access := "destination_audio_access"
    destination_bucket_poster := "destination_poster"
    sns_topic := "topic"
    format := none }

/-- A step-outcome assignment where `parse_format` raises and every other
step succeeds. -/
def outcomeFailParse : Step → Option String
  | Step.parse_format => some "boom"
  | _ => none

/-- A staged directory tree used as concrete input. -/
def sampleTree : FTree :=
  FTree.dir [("r1.mp3", FTree.file "audio-bytes"), ("bag-info.txt", FTree.file "meta")]

/-- A concrete filesystem: working directory, stale archive, and untouched
source directory. -/
def sampleFS : FS :=
  [("tmp/r1", FSEntry.dirEntry sampleTree),
   ("tmp/r1.tar.gz", FSEntry.plainFile "stale"),
   ("source/r1", FSEntry.dirEntry (FTree.dir []))]

/-- A concrete ArchivesSpace date array mixing a single date and a range. -/
def sampleDates : List ASDate :=
  [⟨"single", "1950", ""⟩, ⟨"inclusive", "1940", "1969"⟩]

/-- A transfer-outcome assignment where every upload succeeds. -/
def sampleUploadOkAll : String → Bool := fun _ => true

theorem daysInMonth_le_31 (y m : Nat) : daysInMonth y m ≤ 31 := by
  unfold daysInMonth
  split_ifs <;> omega

theorem pySorted_ne_nil {l : List String} (h : l ≠ []) : pySorted l ≠ [] := by
  intro h0
  apply h
  have hp := List.perm_insertionSort pyStrLe l
  rw [pySorted] at h0
  rw [h0] at hp
  exact hp.symm.eq_nil

theorem sorted_head_min {l : List String} (hs : List.Sorted pyStrLe l) {x : String}
    (hx : x ∈ l) {b : String} (hb : l.head? = some b) : pyStrLe b x := by
  cases l with
  | nil => cases hx
  | cons a t =>
    obtain rfl : a = b := Option.some.inj hb
    rcases List.mem_cons.mp hx with rfl | hx2
    · show x.data ≤ x.data
      exact le_rfl
    · exact List.rel_of_sorted_cons hs x hx2

theorem sorted_getLast_max {l : List String} (hs : List.Sorted pyStrLe l) {x : String}
    (hx : x ∈ l) {e : String} (he : l.getLast? = some e) : pyStrLe x e := by
  induction l with
  | nil => cases hx
  | cons a t ih =>
    cases t with
    | nil =>
      have h1 : x = a := List.mem_singleton.mp hx
      have h2 : a = e := Option.some.inj he
      rw [h1, h2]
      show e.data ≤ e.data
      exact le_rfl
    | cons b t2 =>
      rw [List.getLast?_cons_cons] at he
      have hemem : e ∈ b :: t2 := by
        have h1 := List.getLast?_eq_getLast_of_ne_nil (List.cons_ne_nil b t2)
        obtain rfl : e = (b :: t2).getLast (List.cons_ne_nil b t2) :=
          Option.some.inj (he.symm.trans h1)
        exact List.getLast_mem _
      rcases List.mem_cons.mp hx with rfl | hx2
      · exact List.rel_of_sorted_cons hs e hemem
      · exact ih hs.of_cons hx2 he

/-- C9: for every nonempty collection of date records, `get_date_range`
returns the lexicographic minimum of the begin values and the lexicographic
maximum of the end values, where a record of type `single` contributes its
begin value to both lists. -/
theorem get_date_range_spec (dates_array : List ASDate) (hne : dates_array ≠ []) :
    ∃ b e, get_date_range dates_array = some (b, e) ∧
      b ∈ beginValues dates_array ∧ (∀ x ∈ beginValues dates_array, pyStrLe b x) ∧
      e ∈ endValues dates_array ∧ (∀ x ∈ endValues dates_array, pyStrLe x e) := by
  have hsb := List.sorted_insertionSort pyStrLe (beginValues dates_array)
  have hse := List.sorted_insertionSort pyStrLe (endValues dates_array)
  have hpb := List.perm_insertionSort pyStrLe (beginValues dates_array)
  have hpe := List.perm_insertionSort pyStrLe (endValues dates_array)
  have hb_ne : pySorted (beginValues dates_array) ≠ [] := by
    apply pySorted_ne_nil
    simpa [beginValues] using hne
  have he_ne : pySorted (endValues dates_array) ≠ [] := by
    apply pySorted_ne_nil
    simpa [endValues] using hne
  obtain ⟨b, hb⟩ : ∃ b, (pySorted (beginValues dates_array)).head? = some b := by
    cases hcase : pySorted (beginValues dates_array) with
    | nil => exact absurd hcase hb_ne
    | cons a t => exact ⟨a, rfl⟩
  obtain ⟨e, he⟩ : ∃ e, (pySorted (endValues dates_array)).getLast? = some e := by
    cases hcase : pySorted (endValues dates_array) with
    | nil => exact absurd hcase he_ne
    | cons a t =>
      exact ⟨(a :: t).getLast (List.cons_ne_nil a t),
        List.getLast?_eq_getLast_of_ne_nil (List.cons_ne_nil a t)⟩
  refine ⟨b, e, ?_, ?_, ?_, ?_, ?_⟩
  · simp [get_date_range, hb, he]
  · exact hpb.subset (List.mem_of_mem_head? hb)
  · intro x hx
    exact sorted_head_min hsb (hpb.symm.subset hx) hb
  · apply hpe.subset
    have h1 := List.getLast?_eq_getLast_of_ne_nil he_ne
    obtain rfl : e = (pySorted (endValues dates_array)).getLast he_ne :=
      Option.some.inj (he.symm.trans h1)
    exact List.getLast_mem _
  · intro x hx
    exact sorted_getLast_max hse (hpe.symm.subset hx) he

/-- Witness for C9: the mixed single/range concrete date array. -/
theorem get_date_range_spec_witness :
    ∃ b e, get_date_range sampleDates = some (b, e) ∧
      b ∈ beginValues sampleDates ∧ (∀ x ∈ beginValues sampleDates, pyStrLe b x) ∧
      e ∈ endValues sampleDates ∧ (∀ x ∈ endValues sampleDates, pyStrLe x e) :=
  get_date_range_spec sampleDates (by decide)

theorem runSteps_all_none (outcome : Step → Option String) :
    ∀ l : List Step, (∀ t ∈ l, outcome t = none) →
      runSteps outcome l = (l.map RunEvent.called, none) := by
  intro l
  induction l with
  | nil => intro _; rfl
  | cons s rest ih =>
    intro h
    have hs : outcome s = none := h s (List.mem_cons_self s rest)
    simp [runSteps, hs, ih (fun t ht => h t (List.mem_cons_of_mem s ht))]

theorem runSteps_first_fail (outcome : Step → Option String) (e : String) :
    ∀ (done : List Step) (s : Step) (rest : List Step),
      (∀ t ∈ done, outcome t = none) → outcome s = some e →
      runSteps outcome (done ++ s :: rest) =
        ((done ++ [s]).map RunEvent.called, some e) := by
  intro done
  induction done with
  | nil =>
    intro s rest _ hs
    simp [runSteps, hs]
  | cons a d ih =>
    intro s rest h hs
    have ha : outcome a = none := h a (List.mem_cons_self a d)
    simp [runSteps, ha, ih s rest (fun t ht => h t (List.mem_cons_of_mem a ht)) hs]

/-- C1: if the step `s` of the pipeline raises `e` while all earlier steps
succeed, `run` calls exactly the steps up to and including `s`, then
`cleanup_failed_job` and then `deliver_failure_notification e`, skips every
remaining forward step, and the exception does not escape `run` (it is caught
exactly once at the orchestrator boundary); if every step completes, no
`cleanup_failed_job` or `deliver_failure_notification` call occurs. -/
theorem run_pipeline_spec :
    (∀ (outcome : Step → Option String) (done : List Step) (s : Step) (rest : List Step)
        (e : String),
      pipelineSteps = done ++ s :: rest →
      (∀ t ∈ done, outcome t = none) →
      outcome s = some e →
      run outcome none =
        ((done ++ [s]).map RunEvent.called ++
          [RunEvent.cleanup_failed_job_called,
           RunEvent.deliver_failure_notification_called e], none) ∧
      (∀ t ∈ rest, RunEvent.called t ∉ (run outcome none).1)) ∧
    (∀ outcome : Step → Option String, (∀ t ∈ pipelineSteps, outcome t = none) →
      run outcome none = (pipelineSteps.map RunEvent.called, none) ∧
      (∀ ev ∈ (run outcome none).1, ∃ t, ev = RunEvent.called t)) := by
  constructor
  · intro outcome done s rest e hsplit hdone hs
    have hrun : run outcome none =
        ((done ++ [s]).map RunEvent.called ++
          [RunEvent.cleanup_failed_job_called,
           RunEvent.deliver_failure_notification_called e], none) := by
      unfold run
      rw [hsplit, runSteps_first_fail outcome e done s rest hdone hs]
    refine ⟨hrun, ?_⟩
    intro t ht hmem
    rw [hrun] at hmem
    have hnodup : pipelineSteps.Nodup := by decide
    rw [hsplit] at hnodup
    rcases List.mem_append.mp hmem with h1 | h2
    · obtain ⟨u, hu, hequ⟩ := List.mem_map.mp h1
      have hut : u = t := by injection hequ
      rw [hut] at hu
      rcases List.mem_append.mp hu with hu1 | hu2
      · exact (List.nodup_append.mp hnodup).2.2 hu1 (List.mem_cons_of_mem s ht)
      · have hts : t = s := List.mem_singleton.mp hu2
        have hns : s ∉ rest := (List.nodup_cons.mp (List.nodup_append.mp hnodup).2.1).1
        exact hns (hts ▸ ht)
    · simp at h2
  · intro outcome h
    have hrun : run outcome none = (pipelineSteps.map RunEvent.called, none) := by
      unfold run
      rw [runSteps_all_none outcome pipelineSteps h]
    refine ⟨hrun, ?_⟩
    intro ev hev
    rw [hrun] at hev
    obtain ⟨t, _, hev2⟩ := List.mem_map.mp hev
    exact ⟨t, hev2.symm⟩

/-- Witness for C1: a pipeline whose `parse_format` step raises. -/
theorem run_pipeline_spec_witness :
    run outcomeFailParse none =
      ([RunEvent.called Step.get_config, RunEvent.called Step.move_to_tmp,
        RunEvent.called Step.parse_format, RunEvent.cleanup_failed_job_called,
        RunEvent.deliver_failure_notification_called "boom"], none) :=
  (run_pipeline_spec.1 outcomeFailParse [Step.get_config, Step.move_to_tmp] Step.parse_format
    [Step.create_poster, Step.deliver_derivatives, Step.create_bag, Step.compress_bag,
     Step.deliver_package, Step.cleanup_successful_job, Step.deliver_success_notification]
    "boom" rfl (by decide) rfl).1

/-- C10: in the failure path, `cleanup_failed_job` runs before
`deliver_failure_notification` with no inner guard: when the cleanup call
itself raises `ce`, the failure notification is never published and `ce`
propagates out of `run` uncaught. -/
theorem run_cleanup_exception_spec (outcome : Step → Option String) (done : List Step)
    (s : Step) (rest : List Step) (e ce : String)
    (hsplit : pipelineSteps = done ++ s :: rest)
    (hdone : ∀ t ∈ done, outcome t = none)
    (hs : outcome s = some e) :
    run outcome (some ce) =
      ((done ++ [s]).map RunEvent.called ++ [RunEvent.cleanup_failed_job_called], some ce) ∧
    (∀ msg, RunEvent.deliver_failure_notification_called msg ∉ (run outcome (some ce)).1) := by
  have hrun : run outcome (some ce) =
      ((done ++ [s]).map RunEvent.called ++ [RunEvent.cleanup_failed_job_called], some ce) := by
    unfold run
    rw [hsplit, runSteps_first_fail outcome e done s rest hdone hs]
  refine ⟨hrun, ?_⟩
  intro msg hmem
  rw [hrun] at hmem
  rcases List.mem_append.mp hmem with h1 | h2
  · obtain ⟨u, _, hequ⟩ := List.mem_map.mp h1
    exact RunEvent.noConfusion hequ
  · simp at h2

/-- Witness for C10: the `parse_format`-failing pipeline with a raising
cleanup. -/
theorem run_cleanup_exception_spec_witness :
    run outcomeFailParse (some "rmtree-error") =
      ([RunEvent.called Step.get_config, RunEvent.called Step.move_to_tmp,
        RunEvent.called Step.parse_format, RunEvent.cleanup_failed_job_called],
       some "rmtree-error") :=
  (run_cleanup_exception_spec outcomeFailParse [Step.get_config, Step.move_to_tmp]
    Step.parse_format
    [Step.create_poster, Step.deliver_derivatives, Step.create_bag, Step.compress_bag,
     Step.deliver_package, Step.cleanup_successful_job, Step.deliver_success_notification]
    "boom" "rmtree-error" rfl (by decide) rfl).1

/-- C2: classification returns audio when some staged file carries the audio
extension `.mp3`; otherwise video when some file carries the video extension
`.mp4`; otherwise it raises an unrecognized-format error naming the file
list.  Concretely, a list containing `.mp3` is audio, a list containing
`.mp4`, `.mov` and `.mkv` is video, and `[.tif, .jpg]` fails. -/
theorem parse_format_spec :
    (∀ file_list : List PathFile,
      ((∃ f ∈ file_list, f.suffix = ".mp3") → parse_format file_list = Except.ok "audio") ∧
      ((¬ ∃ f ∈ file_list, f.suffix = ".mp3") → (∃ f ∈ file_list, f.suffix = ".mp4") →
        parse_format file_list = Except.ok "video") ∧
      ((¬ ∃ f ∈ file_list, f.suffix = ".mp3") → (¬ ∃ f ∈ file_list, f.suffix = ".mp4") →
        parse_format file_list =
          Except.error
            ("Unrecognized package format for files " ++ renderFileList file_list ++ "."))) ∧
    parse_format [⟨"f", ".wav"⟩, ⟨"f", ".mp3"⟩] = Except.ok "audio" ∧
    parse_format [⟨"f", ".mkv"⟩, ⟨"f", ".mov"⟩, ⟨"f", ".mp4"⟩] = Except.ok "video" ∧
    parse_format [⟨"f", ".tif"⟩, ⟨"f", ".jpg"⟩] =
      Except.error "Unrecognized package format for files [f.tif, f.jpg]." := by
  refine ⟨fun file_list => ⟨?_, ?_, ?_⟩, rfl, rfl, rfl⟩
  · intro h
    have hb : (file_list.any fun f => f.suffix = ".mp3") = true := by
      simpa [List.any_eq_true] using h
    simp [parse_format, hb]
  · intro h3 h4
    have hb3 : (file_list.any fun f => f.suffix = ".mp3") = false := by
      simpa [List.any_eq_false] using h3
    have hb4 : (file_list.any fun f => f.suffix = ".mp4") = true := by
      simpa [List.any_eq_true] using h4
    simp [parse_format, hb3, hb4]
  · intro h3 h4
    have hb3 : (file_list.any fun f => f.suffix = ".mp3") = false := by
      simpa [List.any_eq_false] using h3
    have hb4 : (file_list.any fun f => f.suffix = ".mp4") = false := by
      simpa [List.any_eq_false] using h4
    simp [parse_format, hb3, hb4]

/-- Witness for C2: a concrete list without `.mp3` but with `.mp4` classifies
as video. -/
theorem parse_format_spec_witness :
    parse_format [⟨"x", ".tif"⟩, ⟨"x", ".mp4"⟩] = Except.ok "video" :=
  (parse_format_spec.1 [⟨"x", ".tif"⟩, ⟨"x", ".mp4"⟩]).2.1 (by decide) (by decide)

/-- C3: `format_aspace_date` widens the end date: a 4-character end becomes
December 31 of its year, a 7-character end becomes the last day of its
month, and any other (fully-specified) end passes through unchanged; the
start is always formatted `%Y-%m-%d`.  Concretely
`("1950","1950") = ("1950-01-01","1950-12-31")` and
`("1950-03","1969-04") = ("1950-03-01","1969-04-30")`. -/
theorem format_aspace_date_spec :
    (∀ s e ps pe, isoparse s = some ps → isoparse e = some pe → e.length = 4 →
      format_aspace_date s e = some (strftimeYMD ps, strftimeYMD ⟨pe.year, 12, 31⟩)) ∧
    (∀ s e ps pe, isoparse s = some ps → isoparse e = some pe → e.length = 7 →
      format_aspace_date s e =
        some (strftimeYMD ps,
          strftimeYMD ⟨pe.year, pe.month, daysInMonth pe.year pe.month⟩)) ∧
    (∀ s e ps pe, isoparse s = some ps → isoparse e = some pe →
      e.length ≠ 4 → e.length ≠ 7 →
      format_aspace_date s e = some (strftimeYMD ps, e)) ∧
    format_aspace_date "1950" "1950" = some ("1950-01-01", "1950-12-31") ∧
    format_aspace_date "1950-03" "1969-04" = some ("1950-03-01", "1969-04-30") := by
  refine ⟨?_, ?_, ?_, by decide, by decide⟩
  · intro s e ps pe hs he h4
    simp [format_aspace_date, hs, he, h4, relativedeltaAbs, daysInMonth]
  · intro s e ps pe hs he h7
    have h4 : e.length ≠ 4 := by omega
    have hmin : min 31 (daysInMonth pe.year pe.month) = daysInMonth pe.year pe.month :=
      min_eq_right (daysInMonth_le_31 pe.year pe.month)
    simp [format_aspace_date, hs, he, h4, h7, relativedeltaAbs, hmin]
  · intro s e ps pe hs he h4 h7
    simp [format_aspace_date, hs, he, h4, h7]

/-- Witness for C3: the year-month conjunct applied at
`("1950-03", "1969-04")`. -/
theorem format_aspace_date_spec_witness :
    format_aspace_date "1950-03" "1969-04" =
      some (strftimeYMD ⟨1950, 3, 1⟩, strftimeYMD ⟨1969, 4, daysInMonth 1969 4⟩) :=
  format_aspace_date_spec.2.1 "1950-03" "1969-04" ⟨1950, 3, 1⟩ ⟨1969, 4, 1⟩
    (by decide) (by decide) (by decide)

/-- C4 counterexample: a failure before format classification publishes the
format attribute `"unknown format"`, not the claimed `"unknown"`. -/
theorem failure_notification_unknown_counterexample :
    lookupAttr (deliver_failure_notification samplePackager "boom" ["f0", "f1"]).attributes
        "format" = some "unknown format" ∧
    ("unknown format" : String) ≠ "unknown" := by
  exact ⟨rfl, by decide⟩

/-- C4 (amended): for every failure occurring before the format-classification
step has assigned `self.format`, the published failure notification carries
the sentinel string `"unknown format"` as its format attribute, alongside the
job id, the service name and the FAILURE outcome tag. -/
theorem failure_notification_preformat_spec (p : Packager) (excMessage : String)
    (excFrames : List String) (h : p.format = none) :
    lookupAttr (deliver_failure_notification p excMessage excFrames).attributes "format" =
        some "unknown format" ∧
    lookupAttr (deliver_failure_notification p excMessage excFrames).attributes "refid" =
        some p.refid ∧
    lookupAttr (deliver_failure_notification p excMessage excFrames).attributes "service" =
        some "digitized_av_packaging" ∧
    lookupAttr (deliver_failure_notification p excMessage excFrames).attributes "outcome" =
        some "FAILURE" := by
  simp [deliver_failure_notification, lookupAttr, h, service_name]

/-- Witness for C4 (amended): the concrete packager before classification. -/
theorem failure_notification_preformat_spec_witness :
    lookupAttr (deliver_failure_notification samplePackager "boom" []).attributes "format" =
        some "unknown format" ∧
    lookupAttr (deliver_failure_notification samplePackager "boom" []).attributes "refid" =
        some samplePackager.refid ∧
    lookupAttr (deliver_failure_notification samplePackager "boom" []).attributes "service" =
        some "digitized_av_packaging" ∧
    lookupAttr (deliver_failure_notification samplePackager "boom" []).attributes "outcome" =
        some "FAILURE" :=
  failure_notification_preformat_spec samplePackager "boom" [] rfl

/-- C5: the derivative plan is a pure function of the classified format and
the paths of the job: for video exactly the mezzanine `.mov`, access `.mp4` and
poster entries with their destinations and content types, and for audio
exactly the access `.mp3` entry. -/
theorem derivative_map_spec (p : Packager) :
    derivative_map { p with format := some "video" } =
      [(p.tmp_dir ++ "/" ++ p.refid ++ "/" ++ p.refid ++ ".mov",
        p.destination_bucket_video_mezzanine, "video/quicktime"),
       (p.tmp_dir ++ "/" ++ p.refid ++ "/" ++ p.refid ++ ".mp4",
        p.destination_bucket_video_access, "video/mp4"),
       (p.tmp_dir ++ "/" ++ p.refid ++ "/poster.png",
        p.destination_bucket_poster, "image/x-png")] ∧
    derivative_map { p with format := some "audio" } =
      [(p.tmp_dir ++ "/" ++ p.refid ++ "/" ++ p.refid ++ ".mp3",
        p.destination_bucket_audio_access, "audio/mpeg")] := by
  constructor <;> simp [derivative_map]

theorem fsLookup_erase_self (fs : FS) (p : String) : fsLookup (fsErase fs p) p = none := by
  induction fs with
  | nil => rfl
  | cons entry rest ih =>
    obtain ⟨q, en⟩ := entry
    by_cases hq : q = p
    · simp [fsErase, hq, ih]
    · simp [fsErase, fsLookup, hq, Ne.symm hq, ih]

theorem fsLookup_erase_ne (fs : FS) (p q : String) (h : q ≠ p) :
    fsLookup (fsErase fs p) q = fsLookup fs q := by
  induction fs with
  | nil => rfl
  | cons entry rest ih =>
    obtain ⟨r, en⟩ := entry
    by_cases hr : r = p
    · subst hr
      simp [fsErase, fsLookup, h, ih]
    · simp [fsErase, fsLookup, hr, ih]

theorem fsLookup_insert_self (fs : FS) (p : String) (e : FSEntry) :
    fsLookup (fsInsert fs p e) p = some e := by
  simp [fsInsert, fsLookup]

theorem fsLookup_insert_ne (fs : FS) (p q : String) (e : FSEntry) (h : q ≠ p) :
    fsLookup (fsInsert fs p e) q = fsLookup fs q := by
  simp only [fsInsert, fsLookup, if_neg h]
  exact fsLookup_erase_ne fs p q h

theorem ne_append_tar_gz (s : String) : s ≠ s ++ ".tar.gz" := by
  intro h
  have hlen : s.length = (s ++ ".tar.gz").length := congrArg String.length h
  rw [String.length_append] at hlen
  have h7 : (".tar.gz" : String).length = 7 := rfl
  omega

theorem is_dir_true_iff (fs : FS) (p : String) :
    is_dir fs p = true ↔ ∃ t, fsLookup fs p = some (FSEntry.dirEntry t) := by
  unfold is_dir
  cases h : fsLookup fs p with
  | none => simp
  | some en => cases en <;> simp

theorem cleanup_first_phase (fs : FS) (bag_dir : String) :
    ∃ fs1, (if is_dir fs bag_dir then rmtree fs bag_dir else Except.ok fs) = Except.ok fs1 ∧
      is_dir fs1 bag_dir = false ∧
      (∀ q, q ≠ bag_dir → fsLookup fs1 q = fsLookup fs q) := by
  by_cases hdir : is_dir fs bag_dir = true
  · obtain ⟨t, hlook⟩ := (is_dir_true_iff fs bag_dir).mp hdir
    refine ⟨fsErase fs bag_dir, ?_, ?_, ?_⟩
    · simp [hdir, rmtree, hlook]
    · simp [is_dir, fsLookup_erase_self]
    · exact fun q hq => fsLookup_erase_ne fs bag_dir q hq
  · rw [Bool.not_eq_true] at hdir
    exact ⟨fs, by simp [hdir], hdir, fun q _ => rfl⟩

theorem unlink_missing_ok_ok (fs : FS) (p : String) (h : is_dir fs p = false) :
    ∃ fs', unlink fs p true = Except.ok fs' ∧ fsLookup fs' p = none ∧
      ∀ q, q ≠ p → fsLookup fs' q = fsLookup fs q := by
  cases hl : fsLookup fs p with
  | none => exact ⟨fs, by simp [unlink, hl], hl, fun q _ => rfl⟩
  | some en =>
    cases en with
    | dirEntry t =>
      exfalso
      have : is_dir fs p = true := (is_dir_true_iff fs p).mpr ⟨t, hl⟩
      rw [h] at this
      cases this
    | archive a =>
      exact ⟨fsErase fs p, by simp [unlink, hl], fsLookup_erase_self fs p,
        fun q hq => fsLookup_erase_ne fs p q hq⟩
    | plainFile c =>
      exact ⟨fsErase fs p, by simp [unlink, hl], fsLookup_erase_self fs p,
        fun q hq => fsLookup_erase_ne fs p q hq⟩

/-- C7: `cleanup_failed_job` never raises (provided the archive path is not a
directory, the only shape the Python `unlink` call refuses): afterwards the working
directory no longer exists as a directory and the partial archive is gone,
absence of either being tolerated, and every other path — in particular the
source-side input directory — is untouched. -/
theorem cleanup_failed_job_spec (fs : FS) (bag_dir : String)
    (harc : is_dir fs (bag_dir ++ ".tar.gz") = false) :
    ∃ fs', cleanup_failed_job fs bag_dir = Except.ok fs' ∧
      is_dir fs' bag_dir = false ∧
      fsLookup fs' (bag_dir ++ ".tar.gz") = none ∧
      ∀ q, q ≠ bag_dir → q ≠ bag_dir ++ ".tar.gz" → fsLookup fs' q = fsLookup fs q := by
  obtain ⟨fs1, h1, h2, h3⟩ := cleanup_first_phase fs bag_dir
  have harc1 : is_dir fs1 (bag_dir ++ ".tar.gz") = false := by
    unfold is_dir
    rw [h3 _ (Ne.symm (ne_append_tar_gz bag_dir))]
    exact harc
  obtain ⟨fs2, h4, h5, h6⟩ := unlink_missing_ok_ok fs1 (bag_dir ++ ".tar.gz") harc1
  refine ⟨fs2, ?_, ?_, h5, ?_⟩
  · simp [cleanup_failed_job, h1, h4]
  · unfold is_dir
    rw [h6 _ (ne_append_tar_gz bag_dir)]
    exact h2
  · intro q hq1 hq2
    rw [h6 q hq2, h3 q hq1]

/-- Witness for C7: the concrete filesystem with working directory, stale
archive and source directory. -/
theorem cleanup_failed_job_spec_witness :
    ∃ fs', cleanup_failed_job sampleFS "tmp/r1" = Except.ok fs' ∧
      is_dir fs' "tmp/r1" = false ∧
      fsLookup fs' ("tmp/r1" ++ ".tar.gz") = none ∧
      ∀ q, q ≠ "tmp/r1" → q ≠ "tmp/r1" ++ ".tar.gz" →
        fsLookup fs' q = fsLookup sampleFS q :=
  cleanup_failed_job_spec sampleFS "tmp/r1" (by decide)

/-- C6: compressing an existing envelope directory `tmp_dir/refid` produces
the sibling archive `tmp_dir/refid.tar.gz` whose (hypothetical) decompression
reproduces the original tree, relative paths preserved, rooted under the
top-level directory named after the job id; the uncompressed directory is
deleted afterwards and no other path is touched. -/
theorem compress_bag_spec (fs : FS) (tmp_dir refid : String) (tree : FTree)
    (hname : pathName (tmp_dir ++ "/" ++ refid) = refid)
    (hlook : fsLookup fs (tmp_dir ++ "/" ++ refid) = some (FSEntry.dirEntry tree)) :
    ∃ fs', compress_bag fs (tmp_dir ++ "/" ++ refid) =
        Except.ok (tmp_dir ++ "/" ++ refid ++ ".tar.gz", fs') ∧
      fsLookup fs' (tmp_dir ++ "/" ++ refid ++ ".tar.gz") =
        some (FSEntry.archive ⟨refid, tree⟩) ∧
      extractArchive ⟨refid, tree⟩ = [(refid, tree)] ∧
      fsLookup fs' (tmp_dir ++ "/" ++ refid) = none ∧
      ∀ q, q ≠ tmp_dir ++ "/" ++ refid → q ≠ tmp_dir ++ "/" ++ refid ++ ".tar.gz" →
        fsLookup fs' q = fsLookup fs q := by
  have hne : tmp_dir ++ "/" ++ refid ≠ tmp_dir ++ "/" ++ refid ++ ".tar.gz" :=
    ne_append_tar_gz (tmp_dir ++ "/" ++ refid)
  have hrm : rmtree
      (fsInsert fs (tmp_dir ++ "/" ++ refid ++ ".tar.gz") (FSEntry.archive ⟨refid, tree⟩))
      (tmp_dir ++ "/" ++ refid) =
      Except.ok (fsErase
        (fsInsert fs (tmp_dir ++ "/" ++ refid ++ ".tar.gz") (FSEntry.archive ⟨refid, tree⟩))
        (tmp_dir ++ "/" ++ refid)) := by
    unfold rmtree
    rw [fsLookup_insert_ne fs _ _ _ hne, hlook]
  refine ⟨fsErase
      (fsInsert fs (tmp_dir ++ "/" ++ refid ++ ".tar.gz") (FSEntry.archive ⟨refid, tree⟩))
      (tmp_dir ++ "/" ++ refid), ?_, ?_, rfl, ?_, ?_⟩
  · simp only [compress_bag, hlook, hname, hrm]
  · rw [fsLookup_erase_ne _ _ _ (Ne.symm hne)]
    exact fsLookup_insert_self fs _ _
  · exact fsLookup_erase_self _ _
  · intro q hq1 hq2
    rw [fsLookup_erase_ne _ _ _ hq1, fsLookup_insert_ne fs _ _ _ hq2]

/-- Witness for C6: the concrete filesystem holding the staged tree at
`tmp/r1`. -/
theorem compress_bag_spec_witness :
    ∃ fs', compress_bag sampleFS ("tmp" ++ "/" ++ "r1") =
        Except.ok ("tmp" ++ "/" ++ "r1" ++ ".tar.gz", fs') ∧
      fsLookup fs' ("tmp" ++ "/" ++ "r1" ++ ".tar.gz") =
        some (FSEntry.archive ⟨"r1", sampleTree⟩) ∧
      extractArchive ⟨"r1", sampleTree⟩ = [("r1", sampleTree)] ∧
      fsLookup fs' ("tmp" ++ "/" ++ "r1") = none ∧
      ∀ q, q ≠ "tmp" ++ "/" ++ "r1" → q ≠ "tmp" ++ "/" ++ "r1" ++ ".tar.gz" →
        fsLookup fs' q = fsLookup sampleFS q :=
  compress_bag_spec sampleFS "tmp" "r1" sampleTree rfl rfl

/-- C8: in every upload operation — each `deliver_derivatives` plan entry and
the `deliver_package` archive upload — the local file is unlinked only after
the transfer call for that file has returned success, immediately following
its upload event; if the transfer raises, that operation never unlinks the
file. -/
theorem upload_then_delete_spec :
    (∀ (uploadOk : String → Bool) (refid : String)
        (entries : List (String × String × String)) (path : String),
      S3Event.unlink path ∈ uploadLoop uploadOk refid entries →
      uploadOk path = true ∧
      ∃ pre post bucket content_type,
        uploadLoop uploadOk refid entries =
          pre ++ S3Event.upload_file path bucket (refid ++ pathSuffix path) content_type ::
            S3Event.unlink path :: post) ∧
    (∀ (p : Packager) (uploadOk : String → Bool) (package_path : String),
      S3Event.unlink package_path ∈ deliver_package p uploadOk package_path →
      uploadOk package_path = true ∧
      deliver_package p uploadOk package_path =
        [S3Event.upload_file package_path p.destination_bucket (pathName package_path)
           "application/gzip",
         S3Event.unlink package_path]) := by
  constructor
  · intro uploadOk refid entries
    induction entries with
    | nil => intro path h; cases h
    | cons entry rest ih =>
      obtain ⟨obj_path, bucket, content_type⟩ := entry
      intro path h
      by_cases hok : uploadOk obj_path = true
      · simp only [uploadLoop, hok, if_true, List.mem_cons] at h
        rcases h with h1 | h2 | h3
        · exact absurd h1 (by simp)
        · have hpath : path = obj_path := by injection h2
          subst hpath
          refine ⟨hok, [], uploadLoop uploadOk refid rest, bucket, content_type, ?_⟩
          simp [uploadLoop, hok]
        · obtain ⟨hok3, pre, post, b2, ct2, heq⟩ := ih path h3
          refine ⟨hok3,
            S3Event.upload_file obj_path bucket (refid ++ pathSuffix obj_path) content_type ::
              S3Event.unlink obj_path :: pre, post, b2, ct2, ?_⟩
          simp [uploadLoop, hok, heq]
      · rw [Bool.not_eq_true] at hok
        simp [uploadLoop, hok] at h
  · intro p uploadOk package_path h
    by_cases hok : uploadOk package_path = true
    · exact ⟨hok, by simp [deliver_package, hok]⟩
    · rw [Bool.not_eq_true] at hok
      simp [deliver_package, hok] at h

/-- Witness for C8: a one-entry plan whose upload succeeds. -/
theorem upload_then_delete_spec_witness :
    sampleUploadOkAll "tmp/r1/r1.mp3" = true ∧
    ∃ pre post bucket content_type,
      uploadLoop sampleUploadOkAll "r1" [("tmp/r1/r1.mp3", "dest-audio", "audio/mpeg")] =
        pre ++ S3Event.upload_file "tmp/r1/r1.mp3" bucket
          ("r1" ++ pathSuffix "tmp/r1/r1.mp3") content_type ::
          S3Event.unlink "tmp/r1/r1.mp3" :: post :=
  upload_then_delete_spec.1 sampleUploadOkAll "r1"
    [("tmp/r1/r1.mp3", "dest-audio", "audio/mpeg")] "tmp/r1/r1.mp3" (by decide)

end DigitizedAv
